import Mathlib

/-!
Verification of the bbgo slack notifier and bybit websocket event layer.

The embedding follows the Go source:
- `pkg/notifier/slacknotifier/slack.go` (Notifier.Notify argument scanning)
- the bybit stream event file (WsEvent, WebSocketOpEvent.IsValid, the topic
  codec genTopic / getTopicType / getSymbolFromTopic, BookEvent.OrderBook,
  KLine.toGlobalKLine).

Go strings are Lean `String`s; `strings.Split(s, ".")` with the one-character
separator is `List.splitOn '.'` on the character list, and `strings.Join`
with "." is `List.intercalate ['.']`.  `fixedpoint.Value` and
millisecond timestamps are carried opaquely as `Int`.
-/

/-! ## Topic key codec (bybit) -/

/-- Go `strings.Split(topic, ".")`: split into the dot-separated segments.
For a non-empty separator Go returns at least one element; `List.splitOn`
has the same behavior (splitting `""` yields `[""]`). -/
def strSplitDot (s : String) : List String :=
  (s.data.splitOn '.').map (fun cs => String.mk cs)

/-- Go `genTopic(in ...interface{})`: stringify each part and join with the
"." separator (`strings.Join`).  The claims only apply it to string parts,
on which `fmt.Sprintf("%v", v)` is the identity, so parts are `String`s. -/
def genTopic (parts : List String) : String :=
  String.mk (List.intercalate ['.'] (parts.map String.data))

/-- Go `getTopicType(topic)`: split on "." and return the first segment
(the Go code guards the impossible empty-slice case with ""). -/
def getTopicType (topic : String) : String :=
  match strSplitDot topic with
  | [] => ""
  | first :: _ => first

/-- Go `getSymbolFromTopic(topic)`: split on "."; when there are exactly 3
segments return the third, otherwise the "unexpected topic" error. -/
def getSymbolFromTopic (topic : String) : Except String String :=
  match strSplitDot topic with
  | [_, _, symbol] => Except.ok symbol
  | _ => Except.error ("unexpected topic: " ++ topic)

/-- Modelled from the spec: "splits on `.`, returns the first segment" — the
prefix of the topic up to the first dot, or the whole topic when it has no
dot.  Used to compare `getTopicType` against the spec's words. -/
def firstSegment (t : String) : String :=
  String.mk (t.data.takeWhile (fun c => c != '.'))

/-! ## Websocket op events (bybit) -/

/-- Go `WsOpType` constants. `WsOpType` is a string type. -/
def WsOpTypePing : String := "ping"

def WsOpTypePong : String := "pong"

def WsOpTypeAuth : String := "auth"

def WsOpTypeSubscribe : String := "subscribe"

/-- Go `WebSocketOpEvent`: the control ("op") acknowledgement message. -/
structure WebSocketOpEvent where
  Success : Bool
  RetMsg : String
  ReqId : String
  ConnId : String
  Op : String
  Args : List String
deriving Repr, DecidableEq

/-- Errors returned by `WebSocketOpEvent.IsValid`: the Go code returns either
`fmt.Errorf("unexpected response result: %+v", w)` (per-op validation failed)
or `fmt.Errorf("unexpected op type: %+v", w)` (unrecognized op), each carrying
the offending event. -/
inductive OpError where
  | unexpectedResponse (w : WebSocketOpEvent)
  | unexpectedOpType (w : WebSocketOpEvent)
deriving Repr, DecidableEq

/-- Go `WebSocketOpEvent.IsValid()`: a returned error is `some e`, a nil
error is `none`.  The Go `switch w.Op` over string cases is an equality
chain. -/
def WebSocketOpEvent.IsValid (w : WebSocketOpEvent) : Option OpError :=
  if w.Op = WsOpTypePing then
    if !w.Success || w.RetMsg != WsOpTypePong then some (.unexpectedResponse w)
    else none
  else if w.Op = WsOpTypePong then
    none
  else if w.Op = WsOpTypeAuth then
    if !w.Success || w.RetMsg != "" then some (.unexpectedResponse w)
    else none
  else if w.Op = WsOpTypeSubscribe then
    if !w.Success then some (.unexpectedResponse w)
    else none
  else
    some (.unexpectedOpType w)

/-! ## Event envelope (bybit) -/

/-- Go `WebSocketTopicEvent`: a data ("topic") message; `Ts` is the
millisecond timestamp and `Data` the raw JSON payload, both opaque here. -/
structure WebSocketTopicEvent where
  Topic : String
  -- Go field `Type` (a Lean keyword)
  Typ : String
  Ts : Int
  Data : String
deriving Repr, DecidableEq

/-- Go `WsEvent`: the envelope embedding the two exclusive nullable pointers
`*WebSocketOpEvent` and `*WebSocketTopicEvent`; a nil pointer is `none`. -/
structure WsEvent where
  opEvent : Option WebSocketOpEvent
  topicEvent : Option WebSocketTopicEvent
deriving Repr, DecidableEq

/-- Go `WsEvent.IsOp()`: op pointer non-nil and topic pointer nil. -/
def WsEvent.IsOp (w : WsEvent) : Bool :=
  w.opEvent.isSome && w.topicEvent.isNone

/-- Go `WsEvent.IsTopic()`: op pointer nil and topic pointer non-nil. -/
def WsEvent.IsTopic (w : WsEvent) : Bool :=
  w.opEvent.isNone && w.topicEvent.isSome

/-! ## Order book event (bybit) -/

/-- A price/volume level; `fixedpoint.Value` carried opaquely as `Int`. -/
structure PriceVolume where
  Price : Int
  Volume : Int
deriving Repr, DecidableEq

/-- Go `BookEvent`: order-book payload plus the `Type` copied from the
enclosing `WebSocketTopicEvent`. -/
structure BookEvent where
  Symbol : String
  Bids : List PriceVolume
  Asks : List PriceVolume
  UpdateId : Int
  SequenceId : Int
  -- Go field `Type` (a Lean keyword), copied from WebSocketTopicEvent.Type
  Typ : String
deriving Repr, DecidableEq

/-- Modelled from the spec: `types.SliceOrderBook` (the caller's order-book
snapshot type) is not part of the source under verification; §4.5 says the
adapter "copies `symbol`, `bids`, `asks` verbatim".  The snapshot therefore
carries those three fields plus a representative further field
(`lastUpdateTime`) that the adapter never assigns, to make "every other field
is left at its zero value" statable. -/
structure SliceOrderBook where
  Symbol : String
  Bids : List PriceVolume
  Asks : List PriceVolume
  lastUpdateTime : Int
deriving Repr, DecidableEq

/-- The Go zero value of `types.SliceOrderBook` (the named return value
`snapshot` starts out zero-valued). -/
def zeroSliceOrderBook : SliceOrderBook :=
  { Symbol := "", Bids := [], Asks := [], lastUpdateTime := 0 }

/-- Go `BookEvent.OrderBook()`: start from the zero-valued named return and
assign `Symbol`, `Bids`, `Asks` from the event. -/
def BookEvent.OrderBook (e : BookEvent) : SliceOrderBook :=
  { zeroSliceOrderBook with Symbol := e.Symbol, Bids := e.Bids, Asks := e.Asks }

/-! ## KLine translation (bybit) -/

/-- Go `KLine`: the exchange-native candle record.  Millisecond timestamps
and `fixedpoint.Value` prices are opaque `Int`s. -/
structure KLine where
  StartTime : Int
  EndTime : Int
  Interval : String
  OpenPrice : Int
  ClosePrice : Int
  HighPrice : Int
  LowPrice : Int
  Volume : Int
  Turnover : Int
  Confirm : Bool
  Timestamp : Int
deriving Repr, DecidableEq

/-- Modelled from the spec: `types.KLine`, the caller's canonical candle type,
is not part of the source under verification; its fields are the ones the
adapter's struct literal assigns (§4.5: interval translation, timestamp
normalization, price/volume copies). -/
structure GlobalKLine where
  Exchange : String
  Symbol : String
  StartTime : Int
  EndTime : Int
  Interval : String
  Open : Int
  Close : Int
  High : Int
  Low : Int
  Volume : Int
  QuoteVolume : Int
  Closed : Bool
deriving Repr, DecidableEq

/-- The Go zero value `types.KLine{}` returned in the error case. -/
def zeroGlobalKLine : GlobalKLine :=
  { Exchange := "", Symbol := "", StartTime := 0, EndTime := 0, Interval := ""
    Open := 0, Close := 0, High := 0, Low := 0, Volume := 0, QuoteVolume := 0
    Closed := false }

/-- The error of `toGlobalKLine`:
`fmt.Errorf("unexpected k line interval: %+v", k)`. -/
inductive KLineError where
  | unexpectedInterval (k : KLine)
deriving Repr, DecidableEq

/-- Modelled from the spec: `bybitapi.ToGlobalInterval` is a "static global
lookup data" table translating exchange interval codes; its entries are not
part of the source under verification, so the table is an explicit
association-list parameter and a map lookup is `List.lookup`. -/
def intervalLookup (table : List (String × String)) (code : String) : Option String :=
  table.lookup code

/-- Go `KLine.toGlobalKLine(symbol)`: look the interval up in the translation
table; if absent return the zero `types.KLine` and an error, otherwise build
the translated candle.  Go returns the pair `(types.KLine, error)`. -/
def KLine.toGlobalKLine (table : List (String × String)) (k : KLine)
    (symbol : String) : GlobalKLine × Option KLineError :=
  match intervalLookup table k.Interval with
  | none => (zeroGlobalKLine, some (.unexpectedInterval k))
  | some interval =>
    ({ Exchange := "bybit", Symbol := symbol, StartTime := k.StartTime
       EndTime := k.EndTime, Interval := interval, Open := k.OpenPrice
       Close := k.ClosePrice, High := k.HighPrice, Low := k.LowPrice
       Volume := k.Volume, QuoteVolume := k.Turnover, Closed := k.Confirm },
     none)

/-! ## Slack notifier argument scanning -/

/-- An opaque `slack.Attachment` value. -/
structure Attachment where
  payload : Nat
deriving Repr, DecidableEq

/-- Go `SlackAttachmentCreator`: a value exposing `SlackAttachment()`. -/
structure SlackAttachmentCreator where
  SlackAttachment : Attachment
deriving Repr, DecidableEq

/-- One element of `Notify`'s variadic `args ...interface{}`: the Go type
switch distinguishes the concrete `slack.Attachment`, a
`SlackAttachmentCreator`, and everything else (opaque). -/
inductive NotifyArg where
  | attachment (a : Attachment)
  | creator (c : SlackAttachmentCreator)
  | other (v : Nat)
deriving Repr, DecidableEq

/-- Go loop of `Notifier.Notify`: walk `args` with its index, collecting
attachments in order and recording in `slackArgsOffset` the index of the
first attachment-like argument (`none` plays Go's `-1` sentinel). -/
def notifyScan : List NotifyArg → Nat → List Attachment → Option Nat →
    List Attachment × Option Nat
  | [], _, atts, off => (atts, off)
  | .attachment a :: rest, idx, atts, off =>
    notifyScan rest (idx + 1) (atts ++ [a]) (if off.isNone then some idx else off)
  | .creator c :: rest, idx, atts, off =>
    notifyScan rest (idx + 1) (atts ++ [c.SlackAttachment])
      (if off.isNone then some idx else off)
  | .other _ :: rest, idx, atts, off =>
    notifyScan rest (idx + 1) atts off

/-- Go `Notifier.Notify` after the loop: `slackAttachments`, and
`nonSlackArgs = args[:slackArgsOffset]` when an offset was recorded, else all
of `args`.  The pair is what the posted message is built from (the
attachments, and the arguments handed to `fmt.Sprintf(format, ...)`). -/
def notifyResult (args : List NotifyArg) : List Attachment × List NotifyArg :=
  let scanned := notifyScan args 0 [] none
  (scanned.1,
   match scanned.2 with
   | none => args
   | some i => args.take i)

/-- Claim-side characterization: the attachment an argument contributes, if
any (`slack.Attachment` as is, `SlackAttachmentCreator` converted). -/
def attachOf : NotifyArg → Option Attachment
  | .attachment a => some a
  | .creator c => some c.SlackAttachment
  | .other _ => none

/-- An argument is attachment-like when the type switch recognizes it. -/
def isAttachLike (a : NotifyArg) : Bool :=
  (attachOf a).isSome

/-- Claim-side characterization: the index of the first attachment-like
argument, if any.  Plays the role of Go's `slackArgsOffset`. -/
def firstAttachIdx : List NotifyArg → Option Nat
  | [] => none
  | a :: l => if isAttachLike a then some 0 else (firstAttachIdx l).map (· + 1)

/-! ## Helper lemmas -/

/-- Rebuilding a string from its character list is the identity. -/
theorem String_mk_data (s : String) : String.mk s.data = s := rfl

/-- The head of `splitOnP p l` is the longest prefix of `l` on which `p`
fails. -/
theorem head_splitOnP {α : Type} (p : α → Bool) (l : List α) :
    (l.splitOnP p).head? = some (l.takeWhile (fun c => !(p c))) := by
  induction l with
  | nil => simp
  | cons a l ih =>
    rw [List.splitOnP_cons]
    by_cases h : p a
    · simp [h, List.takeWhile_cons]
    · have hne := List.splitOnP_ne_nil (p := p) l
      cases hsp : l.splitOnP p with
      | nil => exact absurd hsp hne
      | cons x xs =>
        rw [hsp] at ih
        simp only [List.head?] at ih
        simp [List.takeWhile_cons, h, ← Option.some_inj.mp ih]

/-- `strSplitDot` never returns the empty list. -/
theorem strSplitDot_ne_nil (s : String) : strSplitDot s ≠ [] := by
  unfold strSplitDot
  intro h
  exact List.splitOnP_ne_nil _ _ (List.map_eq_nil_iff.mp h)

/-- The first segment produced by `strSplitDot` is the prefix of the string
up to the first dot. -/
theorem strSplitDot_head (s : String) :
    (strSplitDot s).head? = some (firstSegment s) := by
  unfold strSplitDot firstSegment
  have h := head_splitOnP (fun c => c == '.') s.data
  rw [List.head?_map, List.splitOn, h]
  rfl

/-- Splitting the joined parts back recovers the parts, when none of them
contains the separator. -/
theorem strSplitDot_genTopic (parts : List String)
    (h : ∀ p ∈ parts, '.' ∉ p.data) (hne : parts ≠ []) :
    strSplitDot (genTopic parts) = parts := by
  unfold strSplitDot genTopic
  show ((List.intercalate ['.'] (parts.map String.data)).splitOn '.').map String.mk = parts
  rw [List.splitOn_intercalate (parts.map String.data) '.'
    (by simpa using h) (by simpa using hne)]
  rw [List.map_map]
  exact List.map_id'' (fun s => String_mk_data s) parts

/-! ## Claim theorems -/

/-- C1: `IsValid` returns no error exactly for a valid ping (success with
retMsg "pong"), any pong, a valid auth (success with empty retMsg), or a
successful subscribe; and it returns the unrecognized-operation error exactly
when the op is none of ping/pong/auth/subscribe. -/
theorem isValid_characterization (w : WebSocketOpEvent) :
    (w.IsValid = none ↔
      (w.Op = "ping" ∧ w.Success = true ∧ w.RetMsg = "pong") ∨
      w.Op = "pong" ∨
      (w.Op = "auth" ∧ w.Success = true ∧ w.RetMsg = "") ∨
      (w.Op = "subscribe" ∧ w.Success = true)) ∧
    (w.IsValid = some (.unexpectedOpType w) ↔
      (w.Op ≠ "ping" ∧ w.Op ≠ "pong" ∧ w.Op ≠ "auth" ∧ w.Op ≠ "subscribe")) := by
  unfold WebSocketOpEvent.IsValid WsOpTypePing WsOpTypePong WsOpTypeAuth WsOpTypeSubscribe
  obtain ⟨suc, ret, reqId, connId, op, args⟩ := w
  cases suc <;> constructor <;> split_ifs with h1 h2 h3 h4 h5 h6 h7 <;>
    simp_all [Bool.or_eq_true, Bool.not_eq_true', bne_iff_ne]

/-- C2: `IsOp` holds exactly when the op pointer is set and the topic pointer
is nil, `IsTopic` exactly the other way around; they are never both true, and
on a well-formed event (exactly one variant populated) exactly one holds. -/
theorem wsEvent_discrimination (w : WsEvent) :
    (w.IsOp = true ↔ w.opEvent.isSome = true ∧ w.topicEvent = none) ∧
    (w.IsTopic = true ↔ w.opEvent = none ∧ w.topicEvent.isSome = true) ∧
    ¬(w.IsOp = true ∧ w.IsTopic = true) ∧
    ((w.opEvent.isSome = true ∧ w.topicEvent = none) ∨
        (w.opEvent = none ∧ w.topicEvent.isSome = true) →
      (w.IsOp = true ∧ w.IsTopic = false) ∨ (w.IsOp = false ∧ w.IsTopic = true)) := by
  obtain ⟨op, topic⟩ := w
  cases op <;> cases topic <;>
    simp [WsEvent.IsOp, WsEvent.IsTopic]

/-- Witness for C2: a well-formed op frame satisfies the well-formedness
hypothesis and exactly one of the discriminators holds on it. -/
theorem wsEvent_discrimination_witness :
    ((WsEvent.mk (some ⟨true, "pong", "", "", "ping", []⟩) none).opEvent.isSome = true ∧
        (WsEvent.mk (some ⟨true, "pong", "", "", "ping", []⟩) none).topicEvent = none) ∧
    (((WsEvent.mk (some ⟨true, "pong", "", "", "ping", []⟩) none).IsOp = true ∧
        (WsEvent.mk (some ⟨true, "pong", "", "", "ping", []⟩) none).IsTopic = false) ∨
      ((WsEvent.mk (some ⟨true, "pong", "", "", "ping", []⟩) none).IsOp = false ∧
        (WsEvent.mk (some ⟨true, "pong", "", "", "ping", []⟩) none).IsTopic = true)) :=
  ⟨by decide,
   (wsEvent_discrimination (WsEvent.mk (some ⟨true, "pong", "", "", "ping", []⟩) none)).2.2.2
     (Or.inl (by decide))⟩

/-- C3: `getSymbolFromTopic` succeeds exactly on topics whose dot-split has
exactly 3 segments, returning the third; otherwise it returns the
"unexpected topic" error.  Includes the two concrete instances. -/
theorem symbolFromTopic_characterization (t : String) :
    (∀ s, getSymbolFromTopic t = Except.ok s ↔
      (strSplitDot t).length = 3 ∧ (strSplitDot t)[2]? = some s) ∧
    (getSymbolFromTopic t = Except.error ("unexpected topic: " ++ t) ↔
      (strSplitDot t).length ≠ 3) ∧
    getSymbolFromTopic "orderbook.1.BTCUSDT" = Except.ok "BTCUSDT" ∧
    getSymbolFromTopic "orderbook.BTCUSDT" =
      Except.error "unexpected topic: orderbook.BTCUSDT" := by
  refine ⟨?_, ?_, by rfl, by rfl⟩ <;>
    rcases hsp : strSplitDot t with _ | ⟨a, _ | ⟨b, _ | ⟨c, _ | ⟨d, l⟩⟩⟩⟩ <;>
      simp [getSymbolFromTopic, hsp]

/-- C4: `genTopic` joins its parts with "." and re-parsing a 3-part topic
built from dot-free parts recovers the symbol (third part) and the topic
type (first part); concretely on ("orderbook", "1", "BTCUSDT"). -/
theorem genTopic_roundTrip (a b c : String)
    (ha : '.' ∉ a.data) (hb : '.' ∉ b.data) (hc : '.' ∉ c.data) :
    genTopic ["orderbook", "1", "BTCUSDT"] = "orderbook.1.BTCUSDT" ∧
    getSymbolFromTopic (genTopic [a, b, c]) = Except.ok c ∧
    getTopicType (genTopic [a, b, c]) = a := by
  have hsplit : strSplitDot (genTopic [a, b, c]) = [a, b, c] := by
    refine strSplitDot_genTopic [a, b, c] ?_ (by simp)
    intro p hp
    simp only [List.mem_cons, List.not_mem_nil, or_false] at hp
    rcases hp with rfl | rfl | rfl
    · exact ha
    · exact hb
    · exact hc
  exact ⟨by rfl, by simp [getSymbolFromTopic, hsplit], by simp [getTopicType, hsplit]⟩

/-- Witness for C4: the round trip at the concrete dot-free parts
("orderbook", "1", "BTCUSDT"). -/
theorem genTopic_roundTrip_witness :
    ('.' ∉ "orderbook".data ∧ '.' ∉ "1".data ∧ '.' ∉ "BTCUSDT".data) ∧
    (genTopic ["orderbook", "1", "BTCUSDT"] = "orderbook.1.BTCUSDT" ∧
      getSymbolFromTopic (genTopic ["orderbook", "1", "BTCUSDT"]) = Except.ok "BTCUSDT" ∧
      getTopicType (genTopic ["orderbook", "1", "BTCUSDT"]) = "orderbook") :=
  ⟨by decide,
   genTopic_roundTrip "orderbook" "1" "BTCUSDT" (by decide) (by decide) (by decide)⟩

/-- C6: `getTopicType` is total and returns the first dot-separated segment —
the prefix of the topic up to the first dot, the whole topic when it has
none; concretely on "kline.5.ETHUSDT" and on "". -/
theorem topicType_first_segment :
    (∀ t, getTopicType t = firstSegment t) ∧
    getTopicType "kline.5.ETHUSDT" = "kline" ∧
    getTopicType "" = "" := by
  refine ⟨fun t => ?_, by rfl, by rfl⟩
  have h := strSplitDot_head t
  cases hsp : strSplitDot t with
  | nil => exact absurd hsp (strSplitDot_ne_nil t)
  | cons x xs =>
    rw [hsp] at h
    simp only [List.head?, Option.some_inj] at h
    simp [getTopicType, hsp, h]

/-- C5 helper: the translated candle built in the success branch. -/
def translatedKLine (k : KLine) (symbol interval : String) : GlobalKLine :=
  { Exchange := "bybit", Symbol := symbol, StartTime := k.StartTime
    EndTime := k.EndTime, Interval := interval, Open := k.OpenPrice
    Close := k.ClosePrice, High := k.HighPrice, Low := k.LowPrice
    Volume := k.Volume, QuoteVolume := k.Turnover, Closed := k.Confirm }

/-- C5: `toGlobalKLine` errors exactly when the interval code misses the
translation table, in which case the candle it returns is the zero value;
when the interval maps to `iv`, it returns the fully translated candle
(interval translated, symbol set, Closed = Confirm, QuoteVolume = Turnover,
prices and times copied) with no error. -/
theorem toGlobalKLine_characterization (table : List (String × String))
    (k : KLine) (s : String) :
    ((KLine.toGlobalKLine table k s).2.isSome = (intervalLookup table k.Interval).isNone) ∧
    (intervalLookup table k.Interval = none →
      KLine.toGlobalKLine table k s = (zeroGlobalKLine, some (.unexpectedInterval k))) ∧
    (∀ iv, intervalLookup table k.Interval = some iv →
      KLine.toGlobalKLine table k s = (translatedKLine k s iv, none)) := by
  cases h : intervalLookup table k.Interval <;>
    simp [KLine.toGlobalKLine, translatedKLine, h]

/-- Witness for C5: with the one-entry table translating "1" to "1m", a
candle with interval "1" translates successfully, and one with interval "w"
returns the zero candle and the error. -/
theorem toGlobalKLine_characterization_witness :
    (intervalLookup [("1", "1m")] (KLine.mk 5 6 "1" 1 2 3 4 7 8 true 9).Interval = some "1m" ∧
      KLine.toGlobalKLine [("1", "1m")] (KLine.mk 5 6 "1" 1 2 3 4 7 8 true 9) "BTCUSDT" =
        (translatedKLine (KLine.mk 5 6 "1" 1 2 3 4 7 8 true 9) "BTCUSDT" "1m", none)) ∧
    (intervalLookup [("1", "1m")] (KLine.mk 5 6 "w" 1 2 3 4 7 8 true 9).Interval = none ∧
      KLine.toGlobalKLine [("1", "1m")] (KLine.mk 5 6 "w" 1 2 3 4 7 8 true 9) "BTCUSDT" =
        (zeroGlobalKLine, some (.unexpectedInterval (KLine.mk 5 6 "w" 1 2 3 4 7 8 true 9)))) :=
  ⟨⟨by rfl,
    (toGlobalKLine_characterization [("1", "1m")]
      (KLine.mk 5 6 "1" 1 2 3 4 7 8 true 9) "BTCUSDT").2.2 "1m" (by rfl)⟩,
   ⟨by rfl,
    (toGlobalKLine_characterization [("1", "1m")]
      (KLine.mk 5 6 "w" 1 2 3 4 7 8 true 9) "BTCUSDT").2.1 (by rfl)⟩⟩

/-- C7 helper: the scan loop's result, for any starting index, accumulator
and offset: it appends every attachment contribution in order, and records
the first attachment-like index when no offset is set yet. -/
theorem notifyScan_spec (l : List NotifyArg) : ∀ (idx : Nat) (atts : List Attachment),
    notifyScan l idx atts none =
      (atts ++ l.filterMap attachOf, (firstAttachIdx l).map (· + idx)) ∧
    ∀ j, notifyScan l idx atts (some j) = (atts ++ l.filterMap attachOf, some j) := by
  induction l with
  | nil => intro idx atts; simp [notifyScan, firstAttachIdx]
  | cons a l ih =>
    intro idx atts
    cases a with
    | attachment x =>
      refine ⟨?_, fun j => ?_⟩ <;>
        simp [notifyScan, firstAttachIdx, isAttachLike, attachOf,
          (ih (idx + 1) (atts ++ [x])).2]
    | creator c =>
      refine ⟨?_, fun j => ?_⟩ <;>
        simp [notifyScan, firstAttachIdx, isAttachLike, attachOf,
          (ih (idx + 1) (atts ++ [c.SlackAttachment])).2]
    | other v =>
      refine ⟨?_, fun j => ?_⟩
      · show notifyScan l (idx + 1) atts none = _
        rw [(ih (idx + 1) atts).1]
        cases h : firstAttachIdx l <;>
          simp [firstAttachIdx, isAttachLike, attachOf, h]
        omega
      · show notifyScan l (idx + 1) atts (some j) = _
        rw [(ih (idx + 1) atts).2 j]
        simp [attachOf]

/-- C7 helper: truncating at the first attachment-like index is taking the
attachment-free prefix. -/
theorem take_firstAttachIdx (args : List NotifyArg) :
    (match firstAttachIdx args with
      | none => args
      | some i => args.take i) =
      args.takeWhile (fun a => !(isAttachLike a)) := by
  induction args with
  | nil => simp [firstAttachIdx]
  | cons a l ih =>
    by_cases h : isAttachLike a
    · simp [firstAttachIdx, h, List.takeWhile_cons]
    · cases hf : firstAttachIdx l with
      | none =>
        simp only [hf] at ih
        have h1 : firstAttachIdx (a :: l) = none := by
          simp [firstAttachIdx, h, hf]
        simp only [h1]
        rw [List.takeWhile_cons_of_pos (by simp [h])]
        exact congrArg (List.cons a) ih
      | some i =>
        simp only [hf] at ih
        have h1 : firstAttachIdx (a :: l) = some (i + 1) := by
          simp [firstAttachIdx, h, hf]
        simp only [h1, List.take_succ_cons]
        rw [List.takeWhile_cons_of_pos (by simp [h])]
        exact congrArg (List.cons a) ih

/-- C7: `Notify` posts exactly the attachment-like arguments, in order,
converted where needed; and formats the message with exactly the prefix of
arguments strictly before the first attachment-like one (all arguments when
none is attachment-like). -/
theorem notify_partitioning (args : List NotifyArg) :
    (notifyResult args).1 = args.filterMap attachOf ∧
    (notifyResult args).2 = args.takeWhile (fun a => !(isAttachLike a)) := by
  have h := (notifyScan_spec args 0 []).1
  constructor
  · simp [notifyResult, h]
  · have hmap : (firstAttachIdx args).map (· + 0) = firstAttachIdx args := by
      cases firstAttachIdx args <;> simp
    simp only [notifyResult, h, hmap]
    exact take_firstAttachIdx args

/-- C8: `OrderBook` copies `Symbol`, `Bids`, `Asks` verbatim into the
snapshot, leaves every other snapshot field at its zero value, and is
unaffected by `UpdateId`, `SequenceId` and `Type`. -/
theorem orderBook_copies_fields (e : BookEvent) :
    e.OrderBook =
      { Symbol := e.Symbol, Bids := e.Bids, Asks := e.Asks, lastUpdateTime := 0 } ∧
    ∀ u s ty, BookEvent.OrderBook { e with UpdateId := u, SequenceId := s, Typ := ty } =
      e.OrderBook :=
  ⟨rfl, fun _ _ _ => rfl⟩

/-- C9: the decoding operations are pure functions of their arguments: a
second application to the same input yields a structurally equal result.
The embedding is stateless because the source functions read and write no
mutable state; this theorem records two-run equality for each of them. -/
theorem decode_deterministic :
    (∀ t : String,
      getTopicType t = getTopicType t ∧ getSymbolFromTopic t = getSymbolFromTopic t) ∧
    (∀ parts : List String, genTopic parts = genTopic parts) ∧
    (∀ (table : List (String × String)) (k : KLine) (s : String),
      KLine.toGlobalKLine table k s = KLine.toGlobalKLine table k s) ∧
    (∀ w : WebSocketOpEvent, w.IsValid = w.IsValid) ∧
    (∀ e : BookEvent, e.OrderBook = e.OrderBook) :=
  ⟨fun _ => ⟨rfl, rfl⟩, fun _ => rfl, fun _ _ _ => rfl, fun _ => rfl, fun _ => rfl⟩

/-- C10: `getSymbolFromTopic` checks only the segment count: every topic
splitting into exactly 3 segments succeeds, empty segments included, so
"a.b." and ".." both yield the empty symbol. -/
theorem symbolFromTopic_countOnly :
    (∀ t, (∃ s, getSymbolFromTopic t = Except.ok s) ↔ (strSplitDot t).length = 3) ∧
    getSymbolFromTopic "a.b." = Except.ok "" ∧
    getSymbolFromTopic ".." = Except.ok "" := by
  refine ⟨fun t => ?_, by rfl, by rfl⟩
  rcases hsp : strSplitDot t with _ | ⟨a, _ | ⟨b, _ | ⟨c, _ | ⟨d, l⟩⟩⟩⟩ <;>
    simp [getSymbolFromTopic, hsp]
